import Mathlib

/-!
Verification of the coffee-shop repository: a kitchen microservice
(`kitchen/api/api.py`, `kitchen/api/schemas.py`) holding an in-memory list of
schedule records, and an orders microservice
(`orders/repository/models.py`, `orders/repository/unit_of_work.py`) persisting
orders through a unit-of-work transaction scope.

The embedding below translates the Python source into Lean definitions:

* dictionaries that flow through the marshmallow schemas are modelled as
  structures whose `Option` fields record key presence; raw (pre-load) payloads
  and query strings are association lists `List (String × Value)`, and the
  schema `load` functions embed marshmallow's behaviour with
  `unknown = EXCLUDE`: declared fields are read and validated, every other key
  is dropped;
* the module-level mutable list `schedules` is threaded explicitly: a handler
  that mutates it returns the new list next to its HTTP result;
* timestamps (`datetime` values) are modelled as integers ordered as the
  clock is; `uuid.uuid4()` and `datetime.now(timezone.utc)` are injected as
  parameters (`freshId`, `now`) holding the value the call produced;
* `abort(404)` and an uncaught `ValidationError` are modelled as error
  results; a Python handler that falls off the end of its body (returning
  `None`) is modelled by a dedicated `noResponse` result.
-/

/-- One line item of a kitchen schedule, `{product, size, quantity}`
(`OrderItemSchema` in schemas.py). -/
structure OrderItem where
  product : String
  size : String
  quantity : Int
deriving DecidableEq

/-- A JSON-ish value as it appears in a request payload or query dictionary
before a marshmallow schema has loaded it. A list of line items is carried
structured, since no claim turns on the raw shape of a nested item. -/
inductive Value where
  | str (s : String)
  | int (n : Int)
  | bool (b : Bool)
  | time (t : Int)
  | items (l : List OrderItem)
deriving DecidableEq

/-- Python `dict.get` on an association-list dictionary. -/
def lookupRaw (raw : List (String × Value)) (k : String) : Option Value :=
  (raw.find? (fun kv => kv.1 == k)).map (fun kv => kv.2)

/-- Python truthiness of a `Value` (`if in_progress:` in api.py). -/
def Value.truthy : Value → Bool
  | .str s => s ≠ ""
  | .int n => n ≠ 0
  | .bool b => b
  | .time _ => true
  | .items l => l ≠ []

/-- `OrderItemSchema`: `size` must be one of Small/Medium/Large and
`quantity` an integer `≥ 1` (`validate.Range(min=1, min_inclusive=True)`). -/
def orderItemValid (it : OrderItem) : Bool :=
  (it.size == "Small" || it.size == "Medium" || it.size == "Large")
    && (1 ≤ it.quantity)

/-- The status enumeration of `GetScheduleOrderSchema` /
`ScheduleStatusSchema`. -/
def statusEnum : List String := ["pending", "progress", "cancelled", "finished"]

/-- A schedule record as stored in the module-level `schedules` list of
api.py: a dict whose possible keys are `id`, `order`, `status`, `scheduled`
(every key that reaches the store comes either from `ScheduleOrderSchema`
loading — which keeps only `order` and `scheduled` — or from the handler
assignments `payload['id'|'scheduled'|'status'] = ...`). An `Option` field is
`none` when the key is absent from the dict. -/
structure Schedule where
  id : Option String
  order : List OrderItem
  status : Option String
  scheduled : Option Int
deriving DecidableEq

/-- `GetScheduleOrderSchema().validate(schedule)` returns no errors:
`id` present (string), `status` present and in the enumeration, every line
item of `order` valid, `scheduled` present. `validate_schedule` in api.py
raises `ValidationError` exactly when this is false. -/
def scheduleValid (s : Schedule) : Bool :=
  s.id.isSome
    && (match s.status with
        | some st => statusEnum.contains st
        | none => false)
    && s.order.all orderItemValid
    && s.scheduled.isSome

/-- The result of `ScheduleOrderSchema().load` on a raw payload: the declared
fields are `order` (required list of valid items) and `scheduled` (optional
datetime); with `unknown = EXCLUDE` every other key — in particular `id` and
`status` — is dropped. -/
structure SchedulePayload where
  order : List OrderItem
  scheduled : Option Int
deriving DecidableEq

/-- `ScheduleOrderSchema` loading a raw payload dict: `order` required and
item-validated, `scheduled` optional, unknown keys excluded; any failure is a
marshmallow validation error (the field name is reported). -/
def ScheduleOrderSchema.load (raw : List (String × Value)) :
    Except String SchedulePayload :=
  match lookupRaw raw "order" with
  | some (Value.items l) =>
      if l.all orderItemValid then
        match lookupRaw raw "scheduled" with
        | some (Value.time t) => .ok ⟨l, some t⟩
        | some _ => .error "scheduled"
        | none => .ok ⟨l, none⟩
      else .error "order"
  | some _ => .error "order"
  | none => .error "order"

/-- The result of `GetKitchenScheduleParameters().load` on the query dict:
declared fields are `progress` (Boolean), `limit` (Integer) and `since`
(DateTime); with `unknown = EXCLUDE` every other query key — in particular
`in_progress` — is dropped. -/
structure LoadedParams where
  progress : Option Bool
  limit : Option Int
  since : Option Int
deriving DecidableEq

/-- `GetKitchenScheduleParameters` loading the raw query dict. -/
def GetKitchenScheduleParameters.load (raw : List (String × Value)) :
    Except String LoadedParams :=
  match lookupRaw raw "progress" with
  | some (Value.bool _) | none =>
    match lookupRaw raw "limit" with
    | some (Value.int _) | none =>
      match lookupRaw raw "since" with
      | some (Value.time _) | none =>
          .ok ⟨(lookupRaw raw "progress").bind (fun v => match v with
                  | Value.bool b => some b | _ => none),
               (lookupRaw raw "limit").bind (fun v => match v with
                  | Value.int n => some n | _ => none),
               (lookupRaw raw "since").bind (fun v => match v with
                  | Value.time t => some t | _ => none)⟩
      | some _ => .error "since"
    | some _ => .error "limit"
  | some _ => .error "progress"

/-- Python `parameters.get(key)` on the dict produced by
`GetKitchenScheduleParameters().load`: its keys are exactly the declared
fields that were present in the query; any other key — such as
`"in_progress"`, which the handler asks for — yields `None`. -/
def LoadedParams.get (p : LoadedParams) (k : String) : Option Value :=
  if k == "progress" then p.progress.map Value.bool
  else if k == "limit" then p.limit.map Value.int
  else if k == "since" then p.since.map Value.time
  else none

/-- HTTP-level failure outcomes of the kitchen handlers. -/
inductive ApiErr where
  | notFound
  | validation
  | badRequest
deriving DecidableEq

/-- Python `list[:n]` for an arbitrary integer `n`: a nonnegative bound keeps
the first `n` elements; a negative bound keeps all but the last `-n`. -/
def pySliceTo (l : List α) (n : Int) : List α :=
  if 0 ≤ n then l.take n.toNat else l.take ((l.length : Int) + n).toNat

/-- `Schedules.get` in api.py (GET `/kitchen/schedules`), after flask-smorest
has loaded the query through `GetKitchenScheduleParameters`. The handler first
re-validates every stored schedule (raising `ValidationError` on the first bad
one), then filters: it reads `parameters.get("in_progress")` — a key the
loaded dict never holds, its declared field being named `progress` — then
`since` (keep `scheduled >= since`) and `limit` (`query_set[:limit]`). -/
def Schedules.getHandler (parameters : LoadedParams) (schedules : List Schedule) :
    Except ApiErr (List Schedule) :=
  if schedules.all scheduleValid then
    let q0 := schedules
    let q1 := match parameters.get "in_progress" with
      | some v =>
          if v.truthy then q0.filter (fun s => s.status == some "in progress")
          else q0.filter (fun s => !(s.status == some "in progress"))
      | none => q0
    let q2 := match parameters.get "since" with
      | some (Value.time t) =>
          q1.filter (fun s => s.scheduled.any (fun u => t ≤ u))
      | some _ => q1
      | none => q1
    let q3 := match parameters.get "limit" with
      | some (Value.int n) => pySliceTo q2 n
      | some _ => q2
      | none => q2
    .ok q3
  else .error .validation

/-- `Schedules.post` in api.py (POST `/kitchen/schedules`), after the body has
been loaded through `ScheduleOrderSchema`. The handler sets
`payload['id'] = str(uuid.uuid4())`, `payload['scheduled'] =
datetime.now(timezone.utc)`, `payload['status'] = 'pending'`, appends the
record to `schedules`, then validates it (so an invalid record has already
been appended when the error is raised); `freshId` and `now` carry the values
the uuid and clock calls produced. -/
def Schedules.post (freshId : String) (now : Int) (payload : SchedulePayload)
    (schedules : List Schedule) : Except ApiErr Schedule × List Schedule :=
  let record : Schedule :=
    { id := some freshId, order := payload.order,
      status := some "pending", scheduled := some now }
  ((if scheduleValid record then .ok record else .error .validation),
   schedules ++ [record])

/-- POST `/kitchen/schedules` from the raw body: flask-smorest loads it with
`ScheduleOrderSchema` (a load failure is reported before the handler runs and
leaves the store untouched), then `Schedules.post` runs. -/
def Schedules.postRaw (freshId : String) (now : Int)
    (raw : List (String × Value)) (schedules : List Schedule) :
    Except ApiErr Schedule × List Schedule :=
  match ScheduleOrderSchema.load raw with
  | .ok p => Schedules.post freshId now p schedules
  | .error _ => (.error .badRequest, schedules)

/-- Outcome of `KitchenSchedule.get`: the Python handler can return a record,
abort with 404, raise a validation error, or fall off the end of its body and
return `None` (`noResponse`). -/
inductive GetResult where
  | found (s : Schedule)
  | notFound
  | validationError
  | noResponse
deriving DecidableEq

/-- `KitchenSchedule.get` in api.py (GET `/kitchen/schedules/<schedule_id>`).
In the source the `abort(404, ...)` sits INSIDE the `for` loop body, after the
conditional `return`: the first iteration either returns the head (when its id
matches, after validating it) or aborts, so no later element is ever examined;
on an empty list the loop body never runs and the function returns `None`. -/
def KitchenSchedule.get (schedules : List Schedule) (schedule_id : String) :
    GetResult :=
  match schedules with
  | [] => .noResponse
  | s :: _ =>
      if s.id = some schedule_id then
        if scheduleValid s then .found s else .validationError
      else .notFound

/-- `schedule.update(payload)` in `KitchenSchedule.put`: the loaded payload
dict always carries `order` and carries `scheduled` exactly when the body
supplied it, so those keys overwrite the stored record's. -/
def applyUpdate (payload : SchedulePayload) (s : Schedule) : Schedule :=
  { s with order := payload.order,
           scheduled := match payload.scheduled with
             | some t => some t
             | none => s.scheduled }

/-- `KitchenSchedule.put` in api.py (PUT `/kitchen/schedules/<schedule_id>`),
after the body has been loaded through `ScheduleOrderSchema`: scan for the
first record with the given id, merge the payload into it in place, validate,
and return it; `abort(404)` after the loop when nothing matched. The result
pairs the HTTP outcome with the updated `schedules` list. -/
def KitchenSchedule.put (schedule_id : String) (payload : SchedulePayload) :
    List Schedule → Except ApiErr Schedule × List Schedule
  | [] => (.error .notFound, [])
  | s :: rest =>
      if s.id = some schedule_id then
        ((if scheduleValid (applyUpdate payload s) then .ok (applyUpdate payload s)
          else .error .validation),
         applyUpdate payload s :: rest)
      else
        ((KitchenSchedule.put schedule_id payload rest).1,
         s :: (KitchenSchedule.put schedule_id payload rest).2)

/-- PUT `/kitchen/schedules/<schedule_id>` from the raw body: the
`ScheduleOrderSchema` load runs first (dropping unknown keys such as `id` and
`status`; failing before the handler on a bad body), then the handler. -/
def KitchenSchedule.putRaw (schedule_id : String) (raw : List (String × Value))
    (schedules : List Schedule) : Except ApiErr Schedule × List Schedule :=
  match ScheduleOrderSchema.load raw with
  | .ok p => KitchenSchedule.put schedule_id p schedules
  | .error _ => (.error .badRequest, schedules)

/-- `cancel_schedule` in api.py (POST `/kitchen/schedules/<schedule_id>/cancel`):
scan for the first record with the given id, force `status = "cancelled"`
in place, validate, return it with 200; `abort(404)` after the loop when
nothing matched. -/
def cancel_schedule (schedule_id : String) :
    List Schedule → Except ApiErr Schedule × List Schedule
  | [] => (.error .notFound, [])
  | s :: rest =>
      if s.id = some schedule_id then
        ((if scheduleValid { s with status := some "cancelled" }
          then .ok { s with status := some "cancelled" }
          else .error .validation),
         { s with status := some "cancelled" } :: rest)
      else
        ((cancel_schedule schedule_id rest).1,
         s :: (cancel_schedule schedule_id rest).2)

/-- `get_schedule_status` in api.py (GET `/kitchen/schedules/<schedule_id>/status`):
scan for the first record with the given id, validate it, return
`{"status": schedule["status"]}`; `abort(404)` after the loop. -/
def get_schedule_status (schedule_id : String) :
    List Schedule → Except ApiErr (Option String)
  | [] => .error .notFound
  | s :: rest =>
      if s.id = some schedule_id then
        if scheduleValid s then .ok s.status else .error .validation
      else get_schedule_status schedule_id rest

/-- A unit-of-work database session (unit_of_work.py): `committed` holds the
operations made durable by `commit()`, `pending` the operations performed
since the last commit or rollback, `closed` whether `session.close()` has
run. -/
structure UoWSession (α : Type) where
  committed : List α
  pending : List α
  closed : Bool
deriving DecidableEq

/-- `UnitOfWork.commit`: `self.session.commit()` durably persists every
pending operation. -/
def UnitOfWork.commit (s : UoWSession α) : UoWSession α :=
  { s with committed := s.committed ++ s.pending, pending := [] }

/-- `UnitOfWork.rollback`: `self.session.rollback()` discards every pending
(uncommitted) operation. -/
def UnitOfWork.rollback (s : UoWSession α) : UoWSession α :=
  { s with pending := [] }

/-- `self.session.close()`. -/
def sessionClose (s : UoWSession α) : UoWSession α :=
  { s with closed := true }

/-- `UnitOfWork.__exit__(exc_type, exc_val, traceback)`: when an exception
occurred (`exc_type is not None`) it rolls back and closes, then the
unconditional `self.session.close()` runs in either case. -/
def UnitOfWork.exitScope (excOccurred : Bool) (s : UoWSession α) : UoWSession α :=
  sessionClose (if excOccurred then sessionClose (UnitOfWork.rollback s) else s)

/-- An `order_item` row (`OrderItemModel` in models.py). -/
structure OrderItemRow where
  id : String
  order_id : Option Int
  product : String
  size : String
  quantity : Int
deriving DecidableEq

/-- An `orders` row (`OrderModel` in models.py) with its `items`
relationship. -/
structure OrderRow where
  id : Option Int
  items : List OrderItemRow
  status : String
  created : Int
  schedule_id : Option String
  delivery_id : Option String
deriving DecidableEq

/-- Constructing and persisting an `OrderModel` row with the column defaults of
models.py. The `created` column is declared
`Column(DateTime, default=datetime.now(timezone.utc))`: the default argument
is a plain value, evaluated ONCE when models.py is imported, so SQLAlchemy
stamps every row with that constant import-time clock reading (`importTime`),
not with the clock at the insert. `status` defaults to the string
`'created'`; `assignedId` is the integer identity the storage assigns. -/
def OrderModel.insertOrder (importTime : Int) (assignedId : Int)
    (items : List OrderItemRow) (schedule_id delivery_id : Option String) :
    OrderRow :=
  { id := some assignedId, items := items, status := "created",
    created := importTime, schedule_id := schedule_id,
    delivery_id := delivery_id }


instance {ε α : Type} [DecidableEq ε] [DecidableEq α] :
    DecidableEq (Except ε α) := fun a b =>
  match a, b with
  | .ok x, .ok y =>
      if h : x = y then .isTrue (by rw [h]) else .isFalse (by simp [h])
  | .error x, .error y =>
      if h : x = y then .isTrue (by rw [h]) else .isFalse (by simp [h])
  | .ok _, .error _ => .isFalse (by simp)
  | .error _, .ok _ => .isFalse (by simp)

/-- A concrete valid line item (the worked example of the spec). -/
def pizzaItem : OrderItem := { product := "Pizza", size := "Large", quantity := 2 }

/-- A concrete valid stored schedule with id `"a"`. -/
def schedA : Schedule :=
  { id := some "a", order := [pizzaItem], status := some "pending", scheduled := some 0 }

/-- A concrete valid stored schedule with id `"b"`. -/
def schedB : Schedule :=
  { id := some "b", order := [pizzaItem], status := some "pending", scheduled := some 1 }

/-- Claim C1: on scope exit with an error, `rollback()` runs (every pending
uncommitted operation is discarded, committed ones untouched) and the session
is closed; on scope exit without error the session is closed with no automatic
commit, so the pending operations stay uncommitted and nothing new becomes
durable. -/
theorem unit_of_work_exit_contract {α : Type} (s : UoWSession α) (e : Bool) :
    (UnitOfWork.exitScope e s).closed = true ∧
    (UnitOfWork.exitScope e s).committed = s.committed ∧
    (e = true → (UnitOfWork.exitScope e s).pending = []) ∧
    (e = false → (UnitOfWork.exitScope e s).pending = s.pending) := by
  cases e <;>
    simp [UnitOfWork.exitScope, sessionClose, UnitOfWork.rollback]

/-- Witness for `unit_of_work_exit_contract` at a concrete session that holds
one committed and one pending operation and exits with an error. -/
theorem unit_of_work_exit_contract_witness :
    (UnitOfWork.exitScope true (⟨[1], [2], false⟩ : UoWSession Nat)).closed = true ∧
    (UnitOfWork.exitScope true (⟨[1], [2], false⟩ : UoWSession Nat)).committed = [1] ∧
    (true = true →
      (UnitOfWork.exitScope true (⟨[1], [2], false⟩ : UoWSession Nat)).pending = []) ∧
    (true = false →
      (UnitOfWork.exitScope true (⟨[1], [2], false⟩ : UoWSession Nat)).pending = [2]) :=
  unit_of_work_exit_contract ⟨[1], [2], false⟩ true

/-- Claim C2 (code bug): with the store `[schedA, schedB]`, getting id `"b"`
aborts with 404 even though `schedB` is in the collection and matches — the
`abort(404)` inside the loop body stops the scan at the first element, so the
get-by-id operation is NOT the linear scan the claim states. -/
theorem kitchen_get_stops_at_first_element :
    KitchenSchedule.get [schedA, schedB] "b" = GetResult.notFound ∧
    schedB ∈ [schedA, schedB] ∧ schedB.id = some "b" := by
  decide

/-- Claim C10: on an empty schedules collection, `KitchenSchedule.get` falls
off the end of the loop and returns `None` — neither a record nor a 404. -/
theorem kitchen_get_empty_falls_through (schedule_id : String) :
    KitchenSchedule.get [] schedule_id = GetResult.noResponse := rfl

/-- Claim C7 (code bug): the `created` column default is the clock value
computed once at module import. With the module imported at clock 0 and an
order created at clock 5, the stored `created` is 0, strictly BEFORE the
moment of the creation call — not a timestamp assigned at creation. -/
theorem order_created_stamped_at_import_time :
    (OrderModel.insertOrder 0 1 [] none none).created = 0 ∧
    ¬ (5 ≤ (OrderModel.insertOrder 0 1 [] none none).created) := by
  decide

/-- Claim C3 (code bug): the query key `in_progress=true` is dropped by
`GetKitchenScheduleParameters` (its declared field is named `progress`), the
handler's `parameters.get("in_progress")` therefore finds nothing, and the
listing returns a record whose status is `"pending"` unfiltered — the claimed
in-progress filtering never happens. -/
theorem list_in_progress_query_has_no_effect :
    GetKitchenScheduleParameters.load [("in_progress", Value.bool true)] =
      Except.ok ⟨none, none, none⟩ ∧
    Schedules.getHandler ⟨none, none, none⟩ [schedA] = Except.ok [schedA] ∧
    schedA.status = some "pending" := by
  decide

theorem load_ok_order_valid {raw : List (String × Value)} {p : SchedulePayload}
    (h : ScheduleOrderSchema.load raw = .ok p) :
    p.order.all orderItemValid = true := by
  unfold ScheduleOrderSchema.load at h
  split at h
  next l =>
    split at h
    next hall =>
      split at h
      next t => cases h; exact hall
      next => cases h
      next => cases h; exact hall
    next => cases h
  next => cases h
  next => cases h

/-- Claim C4: creating a schedule from any payload accepted by the body schema
assigns the freshly generated id (unique in the store when the generator
avoided the existing ids), stamps `scheduled` with the clock value `now` read
at the call (hence at-or-after the call's moment), forces `status` to
`"pending"` — overwriting anything the caller supplied for `id`, `status` or
`scheduled` — appends the record to the authoritative collection and
validates it before returning success. -/
theorem schedules_post_creates_pending (raw : List (String × Value))
    (freshId : String) (now : Int) (schedules : List Schedule)
    (p : SchedulePayload)
    (hload : ScheduleOrderSchema.load raw = .ok p)
    (hfresh : freshId ∉ schedules.filterMap Schedule.id) :
    ∃ r : Schedule,
      (Schedules.postRaw freshId now raw schedules).1 = .ok r ∧
      r.id = some freshId ∧
      r.status = some "pending" ∧
      r.scheduled = some now ∧
      (Schedules.postRaw freshId now raw schedules).2 = schedules ++ [r] ∧
      ((Schedules.postRaw freshId now raw schedules).2.filterMap Schedule.id).count
        freshId = 1 := by
  have hord := load_ok_order_valid hload
  have hval : scheduleValid
      { id := some freshId, order := p.order,
        status := some "pending", scheduled := some now } = true := by
    simp [scheduleValid, statusEnum, hord]
  refine ⟨{ id := some freshId, order := p.order,
            status := some "pending", scheduled := some now },
          ?_, rfl, rfl, rfl, ?_, ?_⟩
  · simp [Schedules.postRaw, hload, Schedules.post, hval]
  · simp [Schedules.postRaw, hload, Schedules.post]
  · simp [Schedules.postRaw, hload, Schedules.post, List.filterMap_append,
      List.count_append]
    rw [List.count_eq_zero.mpr hfresh]

/-- Witness for `schedules_post_creates_pending`: creating a schedule from the
spec's worked example payload on an empty store. -/
theorem schedules_post_creates_pending_witness :
    ∃ r : Schedule,
      (Schedules.postRaw "id-1" 7 [("order", Value.items [pizzaItem])] []).1 =
        .ok r ∧
      r.id = some "id-1" ∧
      r.status = some "pending" ∧
      r.scheduled = some 7 ∧
      (Schedules.postRaw "id-1" 7 [("order", Value.items [pizzaItem])] []).2 =
        [] ++ [r] ∧
      ((Schedules.postRaw "id-1" 7
          [("order", Value.items [pizzaItem])] []).2.filterMap Schedule.id).count
        "id-1" = 1 :=
  schedules_post_creates_pending [("order", Value.items [pizzaItem])] "id-1" 7 []
    ⟨[pizzaItem], none⟩ (by decide) (by decide)

/-- Claim C5 (counterexample): the PUT payload schema accepts an optional
`scheduled` field, so updating schedule `"a"` (stored with `scheduled = 0`)
with a payload carrying `scheduled = 5` overwrites the stored timestamp —
`scheduled` is NOT immutable after creation. -/
theorem put_overwrites_scheduled :
    (KitchenSchedule.putRaw "a"
        [("order", Value.items [pizzaItem]), ("scheduled", Value.time 5)]
        [schedA]).1 = Except.ok { schedA with scheduled := some 5 } ∧
    (KitchenSchedule.putRaw "a"
        [("order", Value.items [pizzaItem]), ("scheduled", Value.time 5)]
        [schedA]).2 = [{ schedA with scheduled := some 5 }] ∧
    schedA.scheduled = some 0 := by
  decide

/-- Claim C5 as amended: `scheduled` is assigned at creation (the created
record carries the clock value read then); cancel never changes any record's
`scheduled`, and neither does an update whose payload omits `scheduled` — but
an update payload carrying a `scheduled` value overwrites it. (Get, list and
get-status are read-only queries in the source: they assign no field.) -/
theorem scheduled_set_at_creation_mutable_only_by_update (schedule_id : String)
    (p q : SchedulePayload) (ss : List Schedule) (freshId : String) (now : Int) :
    ((cancel_schedule schedule_id ss).2).map Schedule.scheduled =
      ss.map Schedule.scheduled ∧
    (p.scheduled = none →
      ((KitchenSchedule.put schedule_id p ss).2).map Schedule.scheduled =
        ss.map Schedule.scheduled) ∧
    ((Schedules.post freshId now q ss).2).map Schedule.scheduled =
      ss.map Schedule.scheduled ++ [some now] := by
  refine ⟨?_, ?_, ?_⟩
  · induction ss with
    | nil => rfl
    | cons s rest ih =>
        by_cases h : s.id = some schedule_id <;>
          simp [cancel_schedule, h, ih]
  · intro hp
    induction ss with
    | nil => rfl
    | cons s rest ih =>
        by_cases h : s.id = some schedule_id <;>
          simp [KitchenSchedule.put, h, applyUpdate, hp, ih]
  · simp [Schedules.post]

/-- Witness for `scheduled_set_at_creation_mutable_only_by_update` at a
concrete store, payload without `scheduled`, and creation clock 7. -/
theorem scheduled_set_at_creation_mutable_only_by_update_witness :
    ((cancel_schedule "a" [schedA]).2).map Schedule.scheduled =
      [schedA].map Schedule.scheduled ∧
    ((⟨[pizzaItem], none⟩ : SchedulePayload).scheduled = none →
      ((KitchenSchedule.put "a" ⟨[pizzaItem], none⟩ [schedA]).2).map
          Schedule.scheduled = [schedA].map Schedule.scheduled) ∧
    ((Schedules.post "id-1" 7 ⟨[pizzaItem], none⟩ [schedA]).2).map
        Schedule.scheduled = [schedA].map Schedule.scheduled ++ [some 7] :=
  scheduled_set_at_creation_mutable_only_by_update "a" ⟨[pizzaItem], none⟩
    ⟨[pizzaItem], none⟩ [schedA] "id-1" 7

/-- Claim C6 (counterexample): a PUT body carrying `status = "finished"` has
that key dropped by `ScheduleOrderSchema` (`unknown = EXCLUDE`, and `status`
is not among its declared fields), so the updated record of id `"a"` still has
status `"pending"` — no status value can be written via update. -/
theorem put_cannot_write_status :
    ∃ r : Schedule,
      (KitchenSchedule.putRaw "a"
          [("order", Value.items [pizzaItem]), ("status", Value.str "finished")]
          [schedA]).1 = Except.ok r ∧
      r.status = some "pending" ∧
      ¬ r.status = some "finished" :=
  ⟨schedA, by decide, by decide, by decide⟩

/-- Claim C6 as amended: the update operation never changes any record's
`status` — the body schema of PUT declares only `order` and `scheduled` and
drops everything else, so after an update (whether the body loads or is
rejected) every stored record keeps its previous status; the only operations
writing a status are create (`"pending"`) and cancel (`"cancelled"`). -/
theorem put_never_changes_status (schedule_id : String)
    (raw : List (String × Value)) (ss : List Schedule) :
    ((KitchenSchedule.putRaw schedule_id raw ss).2).map Schedule.status =
      ss.map Schedule.status := by
  unfold KitchenSchedule.putRaw
  split
  next p _ =>
    induction ss with
    | nil => rfl
    | cons s rest ih =>
        by_cases h : s.id = some schedule_id <;>
          simp [KitchenSchedule.put, h, applyUpdate, ih]
  next => rfl

theorem LoadedParams.get_in_progress (p : LoadedParams) :
    p.get "in_progress" = none := rfl

theorem LoadedParams.get_since_eq (p : LoadedParams) :
    p.get "since" = p.since.map Value.time := rfl

theorem LoadedParams.get_limit_eq (p : LoadedParams) :
    p.get "limit" = p.limit.map Value.int := rfl

/-- Claim C8 as amended: on a collection of valid records, listing with
`since = T` returns exactly the records with `scheduled >= T`; adding
`limit = N` truncates that subset to its first `N` elements (hence at most
`N`, a sublist of the collection in its original order); the `since` and
`limit` stages compose, while the in-progress stage never filters — the
handler looks the `in_progress` key up in a dict whose only possible keys are
`progress`, `limit` and `since`, so whatever boolean (`pg`) the query carried
for `progress`, the result is the same. -/
theorem list_since_limit_exact (T : Int) (N : Nat) (pg : Option Bool)
    (ss : List Schedule) (hvalid : ss.all scheduleValid = true) :
    Schedules.getHandler ⟨pg, none, some T⟩ ss =
      .ok (ss.filter (fun s => s.scheduled.any (fun u => T ≤ u))) ∧
    Schedules.getHandler ⟨pg, some (N : Int), some T⟩ ss =
      .ok ((ss.filter (fun s => s.scheduled.any (fun u => T ≤ u))).take N) ∧
    ((ss.filter (fun s => s.scheduled.any (fun u => T ≤ u))).take N).length ≤ N ∧
    List.Sublist ((ss.filter (fun s => s.scheduled.any (fun u => T ≤ u))).take N)
      ss := by
  refine ⟨?_, ?_, ?_, ?_⟩
  · simp [Schedules.getHandler, hvalid, LoadedParams.get_in_progress,
      LoadedParams.get_since_eq, LoadedParams.get_limit_eq]
  · simp [Schedules.getHandler, hvalid, LoadedParams.get_in_progress,
      LoadedParams.get_since_eq, LoadedParams.get_limit_eq, pySliceTo]
  · exact List.length_take_le _ _
  · exact (List.take_sublist _ _).trans (List.filter_sublist _)

/-- Witness for `list_since_limit_exact` at `T = 0`, `N = 1`, a query that
carried `progress = true`, and the two-record store `[schedA, schedB]`. -/
theorem list_since_limit_exact_witness :
    Schedules.getHandler ⟨some true, none, some 0⟩ [schedA, schedB] =
      .ok ([schedA, schedB].filter
        (fun s => s.scheduled.any (fun u => (0 : Int) ≤ u))) ∧
    Schedules.getHandler ⟨some true, some ((1 : Nat) : Int), some 0⟩
        [schedA, schedB] =
      .ok (([schedA, schedB].filter
        (fun s => s.scheduled.any (fun u => (0 : Int) ≤ u))).take 1) ∧
    (([schedA, schedB].filter
        (fun s => s.scheduled.any (fun u => (0 : Int) ≤ u))).take 1).length ≤ 1 ∧
    List.Sublist (([schedA, schedB].filter
        (fun s => s.scheduled.any (fun u => (0 : Int) ≤ u))).take 1)
      [schedA, schedB] :=
  list_since_limit_exact 0 1 (some true) [schedA, schedB] (by decide)

/-- Claim C8 (counterexample to the conjunction with the in-progress filter):
the query `in_progress=true&since=0` loads to a parameter dict without any
in-progress entry, and the listing then returns `schedB` — a record whose
status is not the in-progress status — so the `since`/`limit` stages do NOT
compose by logical AND with an in-progress filter. -/
theorem since_not_anded_with_in_progress :
    GetKitchenScheduleParameters.load
        [("in_progress", Value.bool true), ("since", Value.time 0)] =
      Except.ok ⟨none, none, some 0⟩ ∧
    Schedules.getHandler ⟨none, none, some 0⟩ [schedB] = Except.ok [schedB] ∧
    ¬ schedB.status = some "in progress" := by
  decide

/-- Claim C9: cancelling a stored schedule and then cancelling it again both
find the record, force `status = "cancelled"`, re-validate it successfully and
return it with 200 — cancel is idempotent in result. The hypotheses say some
stored record carries the requested id and that every record carrying it is
otherwise schema-conformant (valid line items, `scheduled` present). -/
theorem cancel_idempotent_cancelled (schedule_id : String) (ss : List Schedule)
    (hex : ∃ s ∈ ss, s.id = some schedule_id)
    (hwf : ∀ s ∈ ss, s.id = some schedule_id →
      s.order.all orderItemValid = true ∧ s.scheduled.isSome = true) :
    ∃ c1 c2 : Schedule,
      (cancel_schedule schedule_id ss).1 = .ok c1 ∧
      c1.status = some "cancelled" ∧ scheduleValid c1 = true ∧
      (cancel_schedule schedule_id (cancel_schedule schedule_id ss).2).1 =
        .ok c2 ∧
      c2.status = some "cancelled" ∧ scheduleValid c2 = true := by
  revert hex hwf
  induction ss with
  | nil =>
      intro hex _
      obtain ⟨s, hs, _⟩ := hex
      simp at hs
  | cons s rest ih =>
      intro hex hwf
      by_cases h : s.id = some schedule_id
      · have hw := hwf s (List.mem_cons_self s rest) h
        have hv : scheduleValid { s with status := some "cancelled" } = true := by
          simp [scheduleValid, statusEnum, h, hw.1, hw.2]
        refine ⟨{ s with status := some "cancelled" },
                { s with status := some "cancelled" }, ?_, rfl, hv, ?_, rfl, hv⟩
        · simp [cancel_schedule, h, hv]
          simp [scheduleValid, statusEnum, hw.1, hw.2]
        · simp [cancel_schedule, h, hv]
          simp [scheduleValid, statusEnum, hw.1, hw.2]
      · have hex' : ∃ t ∈ rest, t.id = some schedule_id := by
          obtain ⟨t, ht, hid⟩ := hex
          rcases List.mem_cons.mp ht with rfl | htr
          · exact absurd hid h
          · exact ⟨t, htr, hid⟩
        have hwf' : ∀ t ∈ rest, t.id = some schedule_id →
            t.order.all orderItemValid = true ∧ t.scheduled.isSome = true :=
          fun t ht hid => hwf t (List.mem_cons_of_mem s ht) hid
        obtain ⟨c1, c2, h1, hc1, hv1, h2, hc2, hv2⟩ := ih hex' hwf'
        refine ⟨c1, c2, ?_, hc1, hv1, ?_, hc2, hv2⟩
        · simp [cancel_schedule, h, h1]
        · simp [cancel_schedule, h]
          exact h2

/-- Witness for `cancel_idempotent_cancelled`: cancelling the concrete stored
schedule `"a"` twice. -/
theorem cancel_idempotent_cancelled_witness :
    ∃ c1 c2 : Schedule,
      (cancel_schedule "a" [schedA]).1 = .ok c1 ∧
      c1.status = some "cancelled" ∧ scheduleValid c1 = true ∧
      (cancel_schedule "a" (cancel_schedule "a" [schedA]).2).1 = .ok c2 ∧
      c2.status = some "cancelled" ∧ scheduleValid c2 = true :=
  cancel_idempotent_cancelled "a" [schedA]
    ⟨schedA, by simp, by decide⟩
    (fun s hs _ => by
      rw [List.mem_singleton] at hs
      subst hs
      exact ⟨by decide, by decide⟩)
